import Mathlib

/-!
Shallow embedding of the ArtDRM digital-rights ledger (Solidity contract
`ArtDRM`): artwork registration, license grant/revocation, royalty-aware
sale settlement and the associated view functions.  Machine integers
(`uint256`) are modelled as `Nat`; Solidity 0.8 reverts are modelled by
`Except` results whose error value carries the state at the failing
`require` (the EVM then rolls back, so the carried state is what the
check-then-act discipline leaves observable).  Value transfers out of the
contract are returned as an explicit list of `Transfer` outputs.
-/

/-- Account identities (Solidity `address`); `0` is the null address. -/
abbrev Address := Nat

inductive LicenseType where
  | PERSONAL
  | COMMERCIAL
  | EXCLUSIVE
deriving DecidableEq, Repr

/-- The `License` struct of the contract. -/
structure License where
  tokenId : Nat
  licensee : Address
  startDate : Nat
  endDate : Nat
  termsHash : String
  licenseType : LicenseType
  isActive : Bool
  feePaid : Nat
deriving DecidableEq, Repr

instance : Inhabited License := ⟨⟨0, 0, 0, 0, "", .PERSONAL, false, 0⟩⟩

/-- The `ArtworkInfo` struct of the contract. -/
structure ArtworkInfo where
  creator : Address
  metadataURI : String
  royaltyPercentage : Nat
  isLicensed : Bool
deriving DecidableEq, Repr

instance : Inhabited ArtworkInfo := ⟨⟨0, "", 0, false⟩⟩

/-- One outgoing value transfer `payable(to).transfer(amount)`. -/
structure Transfer where
  dest : Address
  amount : Nat
deriving DecidableEq, Repr

/-- Error kinds of the ledger's `require` checks (spec section 7 taxonomy). -/
inductive Err where
  | NotFound
  | NotOwner
  | InvalidRoyalty
  | EmptyMetadata
  | InvalidLicensee
  | InsufficientFee
  | InvalidDuration
  | NoActiveLicense
  | InsufficientPayment
deriving DecidableEq, Repr

instance {ε α : Type} [DecidableEq ε] [DecidableEq α] : DecidableEq (Except ε α) :=
  fun x y =>
    match x, y with
    | .ok a, .ok b =>
      if h : a = b then .isTrue (by rw [h])
      else .isFalse (by intro hh; cases hh; exact h rfl)
    | .ok _, .error _ => .isFalse (by intro h; cases h)
    | .error _, .ok _ => .isFalse (by intro h; cases h)
    | .error e, .error f =>
      if h : e = f then .isTrue (by rw [h])
      else .isFalse (by intro hh; cases hh; exact h rfl)

/-- Association-list lookup modelling a Solidity `mapping` read. -/
def lookupA {κ α : Type} [DecidableEq κ] : List (κ × α) → κ → Option α
  | [], _ => none
  | p :: rest, k => if p.1 = k then some p.2 else lookupA rest k

/-- Association-list store modelling a Solidity `mapping` assignment. -/
def setA {κ α : Type} [DecidableEq κ] : List (κ × α) → κ → α → List (κ × α)
  | [], k, v => [(k, v)]
  | p :: rest, k, v => if p.1 = k then (k, v) :: rest else p :: setA rest k v

/-- Full contract storage of `ArtDRM`: the counters, the `artworks`,
`tokenLicenses` and `creatorArtworks` mappings, the ERC721 owner
mapping and token URIs, and the `Ownable` contract owner (the platform
treasury that receives the platform fee). -/
structure State where
  currentTokenId : Nat
  licenseCounter : Nat
  contractOwner : Address
  artworks : List (Nat × ArtworkInfo)
  tokenLicenses : List (Nat × List License)
  creatorArtworks : List (Address × List Nat)
  owners : List (Nat × Address)
  tokenURIs : List (Nat × String)
deriving DecidableEq, Repr

/-- Modelled from the spec: the ERC721 `_owners` mapping read (OpenZeppelin
library code, not in the repository).  Absent keys read as the zero
address, exactly the mapping default. -/
def ownerOfD (s : State) (t : Nat) : Address :=
  (lookupA s.owners t).getD 0

/-- Modelled from the spec: ERC721 `_exists(tokenId)` — a token exists iff
its owner entry is non-zero (OpenZeppelin library code, not in the
repository). -/
def tokenExists (s : State) (t : Nat) : Prop :=
  ownerOfD s t ≠ 0

instance (s : State) (t : Nat) : Decidable (tokenExists s t) := by
  unfold tokenExists; infer_instance

/-- The license list `tokenLicenses[tokenId]` (mapping default `[]`). -/
def getLicenses (s : State) (t : Nat) : List License :=
  (lookupA s.tokenLicenses t).getD []

def MAX_ROYALTY : Nat := 2000

def PLATFORM_FEE : Nat := 500

/-- `0.1 ether` in wei. -/
def LICENSE_FEE : Nat := 100000000000000000

/-- The contract's `registerArtwork(metadataURI, royaltyPercentage)` called
by `sender`: checks the royalty bound and non-empty metadata, then
allocates `tokenId = _currentTokenId` (incrementing the counter), mints
the token to the sender, stores the token URI and the `ArtworkInfo`, and
records the token under the creator's list.  The ERC721 `_safeMint`
internals are modelled from the spec as the owner-mapping store. -/
def registerArtwork (s : State) (sender : Address) (metadataURI : String)
    (royaltyPercentage : Nat) : Except (Err × State) (State × Nat) :=
  if MAX_ROYALTY < royaltyPercentage then .error (.InvalidRoyalty, s)
  else if metadataURI.length = 0 then .error (.EmptyMetadata, s)
  else
    let tokenId := s.currentTokenId
    .ok ({ s with
            currentTokenId := s.currentTokenId + 1,
            owners := setA s.owners tokenId sender,
            tokenURIs := setA s.tokenURIs tokenId metadataURI,
            artworks := setA s.artworks tokenId
              ⟨sender, metadataURI, royaltyPercentage, false⟩,
            creatorArtworks := setA s.creatorArtworks sender
              ((lookupA s.creatorArtworks sender).getD [] ++ [tokenId]) },
          tokenId)

/-- The contract's `grantLicense(tokenId, licensee, durationDays, termsHash,
licenseType)` called by `sender` with attached value `msgValue` at time
`now` (`block.timestamp`).  On success returns the new state, the license
id and the outgoing transfers (the license fee is sent back to the
caller, line 176 of the contract). -/
def grantLicense (s : State) (sender : Address) (msgValue : Nat) (tokenId : Nat)
    (licensee : Address) (durationDays : Nat) (termsHash : String)
    (licenseType : LicenseType) (now : Nat) :
    Except (Err × State) (State × Nat × List Transfer) :=
  if ¬ tokenExists s tokenId then .error (.NotFound, s)
  else if ownerOfD s tokenId ≠ sender then .error (.NotOwner, s)
  else if licensee = 0 then .error (.InvalidLicensee, s)
  else if msgValue < LICENSE_FEE then .error (.InsufficientFee, s)
  else if durationDays = 0 then .error (.InvalidDuration, s)
  else
    let licenseId := s.licenseCounter
    let startDate := now
    let endDate := startDate + durationDays * 86400
    let newLicense : License :=
      ⟨tokenId, licensee, startDate, endDate, termsHash, licenseType, true, msgValue⟩
    let art := (lookupA s.artworks tokenId).getD default
    .ok ({ s with
            licenseCounter := s.licenseCounter + 1,
            tokenLicenses := setA s.tokenLicenses tokenId
              (getLicenses s tokenId ++ [newLicense]),
            artworks := setA s.artworks tokenId { art with isLicensed := true } },
          licenseId,
          [⟨sender, msgValue⟩])

/-- The first-match scan of the contract's `revokeLicense` loop: deactivate
the first license of `licensee` with `isActive`, or `none` when the loop
finds nothing (`found == false`). -/
def deactivateFirst (licensee : Address) : List License → Option (List License)
  | [] => none
  | l :: rest =>
    if l.licensee = licensee ∧ l.isActive then
      some ({ l with isActive := false } :: rest)
    else
      (deactivateFirst licensee rest).map (fun ys => l :: ys)

/-- The contract's `revokeLicense(tokenId, licensee)` called by `sender` at
time `now`: after the owner checks, the loop deactivates the first active
license of `licensee` (reverting with the `found` check when there is
none), then recomputes the artwork's `isLicensed` flag by scanning for a
license with `isActive && now <= endDate`. -/
def revokeLicense (s : State) (sender : Address) (tokenId : Nat)
    (licensee : Address) (now : Nat) : Except (Err × State) State :=
  if ¬ tokenExists s tokenId then .error (.NotFound, s)
  else if ownerOfD s tokenId ≠ sender then .error (.NotOwner, s)
  else
    match deactivateFirst licensee (getLicenses s tokenId) with
    | none => .error (.NoActiveLicense, s)
    | some licenses1 =>
      let hasActiveLicense :=
        licenses1.any (fun l => l.isActive && decide (now ≤ l.endDate))
      let art := (lookupA s.artworks tokenId).getD default
      .ok { s with
              tokenLicenses := setA s.tokenLicenses tokenId licenses1,
              artworks := setA s.artworks tokenId
                { art with isLicensed := hasActiveLicense } }

/-- The contract's `handleSale(tokenId, salePrice)` with attached value
`msgValue` from `payer`: on a primary sale (owner equals creator) it pays
`salePrice - platformFee` to the creator and the platform fee to the
contract owner; on a secondary sale it pays the royalty to the creator
and the remainder to the current owner.  Storage is unchanged; the
outgoing transfers are returned. -/
def handleSale (s : State) (payer : Address) (msgValue : Nat)
    (tokenId salePrice : Nat) : Except (Err × State) (State × List Transfer) :=
  if ¬ tokenExists s tokenId then .error (.NotFound, s)
  else if msgValue < salePrice then .error (.InsufficientPayment, s)
  else
    let currentOwner := ownerOfD s tokenId
    let art := (lookupA s.artworks tokenId).getD default
    if currentOwner = art.creator then
      let platformFee := salePrice * PLATFORM_FEE / 10000
      let creatorAmount := salePrice - platformFee
      .ok (s, [⟨art.creator, creatorAmount⟩, ⟨s.contractOwner, platformFee⟩])
    else
      let royaltyAmount := salePrice * art.royaltyPercentage / 10000
      let sellerAmount := salePrice - royaltyAmount
      .ok (s, [⟨art.creator, royaltyAmount⟩, ⟨currentOwner, sellerAmount⟩])

/-- The contract's view `isLicenseValid(tokenId, licensee)` at time `now`:
true iff some license of `licensee` has `isActive && now <= endDate`. -/
def isLicenseValid (s : State) (tokenId : Nat) (licensee : Address)
    (now : Nat) : Except Err Bool :=
  if ¬ tokenExists s tokenId then .error .NotFound
  else
    .ok ((getLicenses s tokenId).any
      (fun l => l.licensee == licensee && l.isActive && decide (now ≤ l.endDate)))

/-- The contract's EIP-2981 view `royaltyInfo(tokenId, salePrice)`. -/
def royaltyInfo (s : State) (tokenId salePrice : Nat) :
    Except Err (Address × Nat) :=
  if ¬ tokenExists s tokenId then .error .NotFound
  else
    let art := (lookupA s.artworks tokenId).getD default
    .ok (art.creator, salePrice * art.royaltyPercentage / 10000)

/-- The constructor's state: both counters zero, empty mappings, `Ownable`
owner set to the deployer. -/
def initState (deployer : Address) : State :=
  ⟨0, 0, deployer, [], [], [], [], []⟩

/-- One public ledger transition: any successful mutating contract call, or
the externally-driven ERC721 ownership transfer the spec treats as an
observed event (modelled from the spec, section 3: `owner` "may change
via an external transfer mechanism"; ERC721 forbids transfer to the zero
address). -/
inductive Step : State → State → Prop where
  | register {s s' : State} {sender : Address} {uri : String} {bps id : Nat}
      (h : registerArtwork s sender uri bps = .ok (s', id)) : Step s s'
  | grant {s s' : State} {sender : Address} {v t : Nat} {licensee : Address}
      {d : Nat} {hsh : String} {lt : LicenseType} {now id : Nat}
      {ts : List Transfer}
      (h : grantLicense s sender v t licensee d hsh lt now = .ok (s', id, ts)) :
      Step s s'
  | revoke {s s' : State} {sender : Address} {t : Nat} {licensee : Address}
      {now : Nat} (h : revokeLicense s sender t licensee now = .ok s') :
      Step s s'
  | sale {s s' : State} {payer : Address} {v t p : Nat} {ts : List Transfer}
      (h : handleSale s payer v t p = .ok (s', ts)) : Step s s'
  | transferOwner {s : State} (t : Nat) (newOwner : Address)
      (h : tokenExists s t) (hnz : newOwner ≠ 0) :
      Step s { s with owners := setA s.owners t newOwner }

/-- A ledger state reachable from some deployment by public transitions. -/
def Reachable (s : State) : Prop :=
  ∃ d : Address, Relation.ReflTransGen Step (initState d) s

/-- One `registerArtwork` call of a batch: caller, metadata and royalty. -/
structure RegCall where
  sender : Address
  uri : String
  bps : Nat
deriving DecidableEq, Repr

/-- Run a sequence of `registerArtwork` calls, collecting the ids returned
by the successful ones (a failed call leaves the state it reverts to). -/
def runRegisters : State → List RegCall → State × List Nat
  | s, [] => (s, [])
  | s, c :: rest =>
    match registerArtwork s c.sender c.uri c.bps with
    | .ok (s', id) =>
      let r := runRegisters s' rest
      (r.1, id :: r.2)
    | .error es => runRegisters es.2 rest

/-- Net balance change of account `a` caused by a call's fee routing: the
transfers it receives minus the value it attached as the caller. -/
def feeNet (ts : List Transfer) (caller : Address) (msgValue : Nat)
    (a : Address) : Int :=
  (((ts.filter (fun tr => tr.dest == a)).map (fun tr => tr.amount)).sum : Int)
    - (if a = caller then (msgValue : Int) else 0)

/-! Helper lemmas about the mapping model and the operations. -/

theorem lookupA_setA_self {κ α : Type} [DecidableEq κ]
    (m : List (κ × α)) (k : κ) (v : α) : lookupA (setA m k v) k = some v := by
  induction m with
  | nil => simp [setA, lookupA]
  | cons p rest ih =>
    by_cases h : p.1 = k
    · simp [setA, h, lookupA]
    · simp [setA, h, lookupA, ih]

theorem lookupA_setA_ne {κ α : Type} [DecidableEq κ]
    (m : List (κ × α)) (k k' : κ) (v : α) (h : k ≠ k') :
    lookupA (setA m k v) k' = lookupA m k' := by
  induction m with
  | nil => simp [setA, lookupA, h]
  | cons p rest ih =>
    by_cases hp : p.1 = k
    · simp [setA, hp, lookupA, h]
    · simp [setA, hp, lookupA, ih]

theorem getD_set_self {α : Type} [Inhabited α] (L : List α) (i : Nat) (v : α)
    (h : i < L.length) : (L.set i v).getD i default = v := by
  induction L generalizing i with
  | nil => simp at h
  | cons a rest ih =>
    cases i with
    | zero => simp [List.set, List.getD]
    | succ n =>
      simp only [List.set, List.getD] at *
      exact ih n (by simpa using h)

theorem getD_set_ne {α : Type} [Inhabited α] (L : List α) (i j : Nat) (v : α)
    (h : i ≠ j) : (L.set i v).getD j default = L.getD j default := by
  induction L generalizing i j with
  | nil => simp [List.set]
  | cons a rest ih =>
    cases i with
    | zero =>
      cases j with
      | zero => exact absurd rfl h
      | succ n => simp [List.set, List.getD]
    | succ m =>
      cases j with
      | zero => simp [List.set, List.getD]
      | succ n =>
        simp only [List.set, List.getD]
        exact ih m n (by omega)

theorem fee_div_le (p bps : Nat) (h : bps ≤ 10000) : p * bps / 10000 ≤ p := by
  have h1 : p * bps ≤ p * 10000 := Nat.mul_le_mul_left p h
  have h2 : p * bps / 10000 ≤ p * 10000 / 10000 := Nat.div_le_div_right h1
  simpa using h2

theorem registerArtwork_error {s : State} {sender : Address} {uri : String}
    {bps : Nat} {e : Err} {s1 : State}
    (h : registerArtwork s sender uri bps = .error (e, s1)) : s1 = s := by
  unfold registerArtwork at h
  split at h
  · exact (Prod.mk.injEq _ _ _ _ ▸ Except.error.inj h).2.symm ▸ rfl
  · split at h
    · cases h; rfl
    · cases h

theorem registerArtwork_ok {s : State} {sender : Address} {uri : String}
    {bps : Nat} {s' : State} {id : Nat}
    (h : registerArtwork s sender uri bps = .ok (s', id)) :
    bps ≤ MAX_ROYALTY ∧ uri.length ≠ 0 ∧ id = s.currentTokenId ∧
    s' = { s with
            currentTokenId := s.currentTokenId + 1,
            owners := setA s.owners s.currentTokenId sender,
            tokenURIs := setA s.tokenURIs s.currentTokenId uri,
            artworks := setA s.artworks s.currentTokenId ⟨sender, uri, bps, false⟩,
            creatorArtworks := setA s.creatorArtworks sender
              ((lookupA s.creatorArtworks sender).getD [] ++ [s.currentTokenId]) } := by
  unfold registerArtwork at h
  split at h
  · cases h
  · split at h
    · cases h
    · refine ⟨by omega, by omega, ?_⟩
      have h2 := Except.ok.inj h
      exact ⟨(Prod.mk.injEq _ _ _ _ ▸ h2).2.symm, (Prod.mk.injEq _ _ _ _ ▸ h2).1.symm⟩

theorem grantLicense_error {s : State} {sender : Address}
    {v t : Nat} {licensee : Address} {d : Nat} {hsh : String}
    {lt : LicenseType} {now : Nat} {e : Err} {s1 : State}
    (h : grantLicense s sender v t licensee d hsh lt now = .error (e, s1)) :
    s1 = s := by
  unfold grantLicense at h
  split at h
  · cases h; rfl
  · split at h
    · cases h; rfl
    · split at h
      · cases h; rfl
      · split at h
        · cases h; rfl
        · split at h
          · cases h; rfl
          · cases h

theorem grantLicense_ok {s : State} {sender : Address}
    {v t : Nat} {licensee : Address} {d : Nat} {hsh : String}
    {lt : LicenseType} {now : Nat} {s' : State} {id : Nat} {ts : List Transfer}
    (h : grantLicense s sender v t licensee d hsh lt now = .ok (s', id, ts)) :
    tokenExists s t ∧ ownerOfD s t = sender ∧ licensee ≠ 0 ∧
    LICENSE_FEE ≤ v ∧ d ≠ 0 ∧ id = s.licenseCounter ∧ ts = [⟨sender, v⟩] ∧
    s' = { s with
            licenseCounter := s.licenseCounter + 1,
            tokenLicenses := setA s.tokenLicenses t
              (getLicenses s t ++ [⟨t, licensee, now, now + d * 86400, hsh, lt, true, v⟩]),
            artworks := setA s.artworks t
              { (lookupA s.artworks t).getD default with isLicensed := true } } := by
  unfold grantLicense at h
  split at h
  · cases h
  next hex =>
    split at h
    · cases h
    next hown =>
      split at h
      · cases h
      next hlic =>
        split at h
        · cases h
        next hfee =>
          split at h
          · cases h
          next hdur =>
            have h2 := Except.ok.inj h
            refine ⟨not_not.mp hex, not_not.mp (fun hc => hown hc), hlic, by omega, hdur,
              (congrArg (fun r => r.2.1) h2).symm,
              (congrArg (fun r => r.2.2) h2).symm,
              (congrArg Prod.fst h2).symm⟩

theorem revokeLicense_error {s : State} {sender : Address} {t : Nat}
    {licensee : Address} {now : Nat} {e : Err} {s1 : State}
    (h : revokeLicense s sender t licensee now = .error (e, s1)) : s1 = s := by
  unfold revokeLicense at h
  split at h
  · cases h; rfl
  · split at h
    · cases h; rfl
    · split at h
      · cases h; rfl
      · cases h

theorem revokeLicense_ok {s : State} {sender : Address} {t : Nat}
    {licensee : Address} {now : Nat} {s' : State}
    (h : revokeLicense s sender t licensee now = .ok s') :
    tokenExists s t ∧ ownerOfD s t = sender ∧
    ∃ licenses1, deactivateFirst licensee (getLicenses s t) = some licenses1 ∧
      s' = { s with
              tokenLicenses := setA s.tokenLicenses t licenses1,
              artworks := setA s.artworks t
                { (lookupA s.artworks t).getD default with
                    isLicensed :=
                      licenses1.any (fun l => l.isActive && decide (now ≤ l.endDate)) } } := by
  unfold revokeLicense at h
  split at h
  · cases h
  next hex =>
    split at h
    · cases h
    next hown =>
      split at h
      · cases h
      next licenses1 hdeact =>
        exact ⟨not_not.mp hex, not_not.mp (fun hc => hown hc), licenses1, hdeact,
          (Except.ok.inj h).symm⟩

theorem handleSale_error {s : State} {payer : Address} {v t p : Nat}
    {e : Err} {s1 : State}
    (h : handleSale s payer v t p = .error (e, s1)) : s1 = s := by
  unfold handleSale at h
  split at h
  · cases h; rfl
  · split at h
    · cases h; rfl
    · dsimp only at h
      split at h
      · cases h
      · cases h

theorem handleSale_ok {s : State} {payer : Address} {v t p : Nat}
    {s' : State} {ts : List Transfer}
    (h : handleSale s payer v t p = .ok (s', ts)) : s' = s := by
  unfold handleSale at h
  split at h
  · cases h
  · split at h
    · cases h
    · dsimp only at h
      split at h
      · exact (congrArg Prod.fst (Except.ok.inj h)).symm
      · exact (congrArg Prod.fst (Except.ok.inj h)).symm

/-- C1: a `handleSale` call on a registered artwork with `amountPaid >=
salePrice` pays, on a primary sale (owner = creator), the 5% platform fee
`floor(salePrice * 500 / 10000)` to the platform treasury and the rest to
the creator; on a secondary sale it pays the royalty
`floor(salePrice * royaltyBps / 10000)` to the creator and the rest to
the current owner; in both branches the output transfers sum to exactly
`salePrice`. -/
theorem handleSale_split_conservation (s : State) (payer : Address)
    (msgValue tokenId salePrice : Nat) (a : ArtworkInfo)
    (hex : tokenExists s tokenId)
    (hart : lookupA s.artworks tokenId = some a)
    (hbps : a.royaltyPercentage ≤ MAX_ROYALTY)
    (hpay : salePrice ≤ msgValue) :
    ∃ ts : List Transfer,
      handleSale s payer msgValue tokenId salePrice = .ok (s, ts) ∧
      (ownerOfD s tokenId = a.creator →
        ts = [⟨a.creator, salePrice - salePrice * PLATFORM_FEE / 10000⟩,
              ⟨s.contractOwner, salePrice * PLATFORM_FEE / 10000⟩]) ∧
      (ownerOfD s tokenId ≠ a.creator →
        ts = [⟨a.creator, salePrice * a.royaltyPercentage / 10000⟩,
              ⟨ownerOfD s tokenId,
                salePrice - salePrice * a.royaltyPercentage / 10000⟩]) ∧
      (ts.map Transfer.amount).sum = salePrice := by
  have hplat : salePrice * PLATFORM_FEE / 10000 ≤ salePrice :=
    fee_div_le salePrice PLATFORM_FEE (by norm_num [PLATFORM_FEE])
  have hroy : salePrice * a.royaltyPercentage / 10000 ≤ salePrice :=
    fee_div_le salePrice a.royaltyPercentage
      (le_trans hbps (by norm_num [MAX_ROYALTY]))
  unfold handleSale
  rw [if_neg (not_not_intro hex), if_neg (Nat.not_lt.mpr hpay)]
  dsimp only
  rw [hart]
  dsimp only [Option.getD_some]
  by_cases hc : ownerOfD s tokenId = a.creator
  · rw [if_pos hc]
    refine ⟨_, rfl, fun _ => rfl, fun hne => absurd hc hne, ?_⟩
    simp only [List.map, List.sum_cons, List.sum_nil]
    omega
  · rw [if_neg hc]
    refine ⟨_, rfl, fun heq => absurd heq hc, fun _ => rfl, ?_⟩
    simp only [List.map, List.sum_cons, List.sum_nil]
    omega

/-- Witness for C1 on a concrete primary sale: one artwork, creator still
the owner, sale price 1000 with payment 1000. -/
theorem handleSale_split_conservation_witness :
    ∃ ts : List Transfer,
      handleSale
        ⟨1, 0, 1, [(0, ⟨2, "m", 0, false⟩)], [], [(2, [0])], [(0, 2)], [(0, "m")]⟩
        9 1000 0 1000 =
        .ok (⟨1, 0, 1, [(0, ⟨2, "m", 0, false⟩)], [], [(2, [0])], [(0, 2)],
              [(0, "m")]⟩, ts) ∧
      (ownerOfD ⟨1, 0, 1, [(0, ⟨2, "m", 0, false⟩)], [], [(2, [0])], [(0, 2)],
          [(0, "m")]⟩ 0 = 2 →
        ts = [⟨2, 1000 - 1000 * PLATFORM_FEE / 10000⟩,
              ⟨1, 1000 * PLATFORM_FEE / 10000⟩]) ∧
      (ownerOfD ⟨1, 0, 1, [(0, ⟨2, "m", 0, false⟩)], [], [(2, [0])], [(0, 2)],
          [(0, "m")]⟩ 0 ≠ 2 →
        ts = [⟨2, 1000 * 0 / 10000⟩,
              ⟨ownerOfD ⟨1, 0, 1, [(0, ⟨2, "m", 0, false⟩)], [], [(2, [0])],
                  [(0, 2)], [(0, "m")]⟩ 0, 1000 - 1000 * 0 / 10000⟩]) ∧
      (ts.map Transfer.amount).sum = 1000 :=
  handleSale_split_conservation
    ⟨1, 0, 1, [(0, ⟨2, "m", 0, false⟩)], [], [(2, [0])], [(0, 2)], [(0, "m")]⟩
    9 1000 0 1000 ⟨2, "m", 0, false⟩
    (by decide) (by decide) (by decide) (by decide)

/-- C5: every failing call of the four public mutating operations leaves
the ledger state exactly as it was: the state carried at the failing
check equals the starting state (the EVM revert then makes this the
observable state), for any starting state and any error. -/
theorem mutating_ops_no_partial_effect :
    (∀ (s : State) (sender : Address) (uri : String) (bps : Nat) (e : Err)
       (s1 : State),
      registerArtwork s sender uri bps = .error (e, s1) → s1 = s) ∧
    (∀ (s : State) (sender : Address) (v t : Nat) (licensee : Address)
       (d : Nat) (hsh : String) (lt : LicenseType) (now : Nat) (e : Err)
       (s1 : State),
      grantLicense s sender v t licensee d hsh lt now = .error (e, s1) →
        s1 = s) ∧
    (∀ (s : State) (sender : Address) (t : Nat) (licensee : Address)
       (now : Nat) (e : Err) (s1 : State),
      revokeLicense s sender t licensee now = .error (e, s1) → s1 = s) ∧
    (∀ (s : State) (payer : Address) (v t p : Nat) (e : Err) (s1 : State),
      handleSale s payer v t p = .error (e, s1) → s1 = s) :=
  ⟨fun _ _ _ _ _ _ h => registerArtwork_error h,
   fun _ _ _ _ _ _ _ _ _ _ _ h => grantLicense_error h,
   fun _ _ _ _ _ _ _ h => revokeLicense_error h,
   fun _ _ _ _ _ _ _ h => handleSale_error h⟩

/-- Witness for C5: a register call that fails the royalty bound reports
back the untouched starting state. -/
theorem mutating_ops_no_partial_effect_witness :
    registerArtwork (initState 1) 2 "mm" 3000 =
      .error (.InvalidRoyalty, initState 1) ∧
    initState 1 = initState 1 :=
  ⟨by decide,
   mutating_ops_no_partial_effect.1 (initState 1) 2 "mm" 3000 .InvalidRoyalty
     (initState 1) (by decide)⟩

theorem deactivateFirst_of_least (licensee : Address) (L : List License)
    (i : Nat) (hi : i < L.length)
    (hm : (L.getD i default).licensee = licensee ∧
          (L.getD i default).isActive = true)
    (hleast : ∀ k, k < i →
      ¬((L.getD k default).licensee = licensee ∧
        (L.getD k default).isActive = true)) :
    deactivateFirst licensee L =
      some (L.set i { L.getD i default with isActive := false }) := by
  induction L generalizing i with
  | nil => simp at hi
  | cons l rest ih =>
    cases i with
    | zero =>
      simp only [List.getD_cons_zero] at hm
      simp [deactivateFirst, hm.1, hm.2]
    | succ n =>
      have h0 := hleast 0 (Nat.succ_pos n)
      simp only [List.getD_cons_zero] at h0
      simp only [List.getD_cons_succ] at hm
      have hn : n < rest.length := by simpa using hi
      have hleast' : ∀ k, k < n →
          ¬((rest.getD k default).licensee = licensee ∧
            (rest.getD k default).isActive = true) := by
        intro k hk
        have := hleast (k + 1) (by omega)
        simpa only [List.getD_cons_succ] using this
      unfold deactivateFirst
      rw [if_neg h0, ih n hn hm hleast']
      rfl

theorem revokeLicense_eq (s : State) (sender : Address) (t : Nat)
    (licensee : Address) (now : Nat) (L1 : List License)
    (hex : tokenExists s t) (hown : ownerOfD s t = sender)
    (hd : deactivateFirst licensee (getLicenses s t) = some L1) :
    revokeLicense s sender t licensee now =
      .ok { s with
              tokenLicenses := setA s.tokenLicenses t L1,
              artworks := setA s.artworks t
                { (lookupA s.artworks t).getD default with
                    isLicensed :=
                      L1.any (fun l => l.isActive && decide (now ≤ l.endDate)) } } := by
  unfold revokeLicense
  rw [if_neg (not_not_intro hex), if_neg (fun hne => hne hown), hd]

/-- C2 (amended): when a licensee holds two active licenses on one artwork
(the only active records for that licensee), `revokeLicense` sets
`active = false` on exactly the earliest-granted (lowest-index) active
record, leaving every other record unchanged; a second revoke call for
the same licensee then deactivates the remaining one. -/
theorem revoke_two_active (s : State) (sender : Address) (t : Nat)
    (licensee : Address) (now now2 : Nat) (L : List License) (i j : Nat)
    (hex : tokenExists s t) (hown : ownerOfD s t = sender)
    (hL : getLicenses s t = L)
    (hij : i < j) (hj : j < L.length)
    (hmi : (L.getD i default).licensee = licensee ∧
           (L.getD i default).isActive = true)
    (hmj : (L.getD j default).licensee = licensee ∧
           (L.getD j default).isActive = true)
    (hothers : ∀ k, k < L.length → k ≠ i → k ≠ j →
      ¬((L.getD k default).licensee = licensee ∧
        (L.getD k default).isActive = true)) :
    ∃ s1, revokeLicense s sender t licensee now = .ok s1 ∧
      getLicenses s1 t = L.set i { L.getD i default with isActive := false } ∧
      ∃ s2, revokeLicense s1 sender t licensee now2 = .ok s2 ∧
        getLicenses s2 t =
          (L.set i { L.getD i default with isActive := false }).set j
            { L.getD j default with isActive := false } := by
  have hi : i < L.length := lt_trans hij hj
  have hd1 : deactivateFirst licensee (getLicenses s t) =
      some (L.set i { L.getD i default with isActive := false }) := by
    rw [hL]
    refine deactivateFirst_of_least licensee L i hi hmi ?_
    intro k hk
    exact hothers k (lt_trans hk hi) (Nat.ne_of_lt hk)
      (Nat.ne_of_lt (lt_trans hk hij))
  refine ⟨_, revokeLicense_eq s sender t licensee now _ hex hown hd1, ?_⟩
  have hgl1 : getLicenses
      { s with
          tokenLicenses := setA s.tokenLicenses t
            (L.set i { L.getD i default with isActive := false }),
          artworks := setA s.artworks t
            { (lookupA s.artworks t).getD default with
                isLicensed :=
                  (L.set i { L.getD i default with isActive := false }).any
                    (fun l => l.isActive && decide (now ≤ l.endDate)) } } t =
      L.set i { L.getD i default with isActive := false } := by
    unfold getLicenses
    dsimp only
    rw [lookupA_setA_self]
    rfl
  refine ⟨hgl1, ?_⟩
  have hgetj : ((L.set i { L.getD i default with isActive := false }).getD j
      default) = L.getD j default :=
    getD_set_ne L i j _ (Nat.ne_of_lt hij)
  have hd2 : deactivateFirst licensee
      (L.set i { L.getD i default with isActive := false }) =
      some ((L.set i { L.getD i default with isActive := false }).set j
        { L.getD j default with isActive := false }) := by
    have hjlen : j < (L.set i
        { L.getD i default with isActive := false }).length := by
      simpa [List.length_set] using hj
    have hmj' : ((L.set i { L.getD i default with
          isActive := false }).getD j default).licensee = licensee ∧
        ((L.set i { L.getD i default with
          isActive := false }).getD j default).isActive = true := by
      rw [hgetj]; exact hmj
    have hleast' : ∀ k, k < j →
        ¬(((L.set i { L.getD i default with
            isActive := false }).getD k default).licensee = licensee ∧
          ((L.set i { L.getD i default with
            isActive := false }).getD k default).isActive = true) := by
      intro k hk
      by_cases hki : k = i
      · rw [hki, getD_set_self L i _ hi]
        intro hcon
        simp at hcon
      · rw [getD_set_ne L i k _ (fun he => hki he.symm)]
        exact hothers k (lt_trans hk hj) hki (Nat.ne_of_lt hk)
    have := deactivateFirst_of_least licensee
      (L.set i { L.getD i default with isActive := false }) j hjlen hmj' hleast'
    rw [hgetj] at this
    exact this
  refine ⟨_, revokeLicense_eq _ sender t licensee now2 _ hex hown (by rw [hgl1]; exact hd2), ?_⟩
  unfold getLicenses
  dsimp only
  rw [lookupA_setA_self]
  rfl

/-- A concrete state for the revoke tie-break scenario: one artwork (id 0,
owner 2) carrying two active licenses for licensee 3, granted at times 0
and 10. -/
def stC2 : State :=
  ⟨1, 2, 1, [(0, ⟨2, "m", 0, true⟩)],
    [(0, [⟨0, 3, 0, 1000000, "a", .PERSONAL, true, LICENSE_FEE⟩,
          ⟨0, 3, 10, 1000000, "b", .PERSONAL, true, LICENSE_FEE⟩])],
    [(2, [0])], [(0, 2)], [(0, "m")]⟩

/-- C2 counterexample: with two active licenses for licensee 3 at indices 0
(earlier) and 1 (most recent), `revokeLicense` deactivates index 0 and
leaves index 1 active — the opposite of the claimed
most-recently-granted (highest-index) policy, and it changes a record
the claim says must stay unchanged. -/
theorem revoke_picks_lowest_index_counterexample :
    (revokeLicense stC2 2 0 3 20).toOption.map
      (fun s' => (((getLicenses s' 0).getD 0 default).isActive,
                  ((getLicenses s' 0).getD 1 default).isActive)) =
      some (false, true) := by decide

/-- Witness for C2 (amended) on the concrete two-license state. -/
theorem revoke_two_active_witness :
    ∃ s1, revokeLicense stC2 2 0 3 20 = .ok s1 ∧
      getLicenses s1 0 =
        [⟨0, 3, 0, 1000000, "a", .PERSONAL, false, LICENSE_FEE⟩,
         ⟨0, 3, 10, 1000000, "b", .PERSONAL, true, LICENSE_FEE⟩] ∧
      ∃ s2, revokeLicense s1 2 0 3 30 = .ok s2 ∧
        getLicenses s2 0 =
          [⟨0, 3, 0, 1000000, "a", .PERSONAL, false, LICENSE_FEE⟩,
           ⟨0, 3, 10, 1000000, "b", .PERSONAL, false, LICENSE_FEE⟩] :=
  revoke_two_active stC2 2 0 3 20 30
    [⟨0, 3, 0, 1000000, "a", .PERSONAL, true, LICENSE_FEE⟩,
     ⟨0, 3, 10, 1000000, "b", .PERSONAL, true, LICENSE_FEE⟩] 0 1
    (by decide) (by decide) (by decide) (by decide) (by decide)
    (by decide) (by decide) (by decide)

theorem artwork_fields_preserved {s s' : State} (t : Nat) (a : ArtworkInfo)
    (hreg : t < s.currentTokenId)
    (hart : lookupA s.artworks t = some a)
    (hstep : Step s s') :
    ∃ a', lookupA s'.artworks t = some a' ∧ a'.creator = a.creator ∧
      a'.metadataURI = a.metadataURI ∧
      a'.royaltyPercentage = a.royaltyPercentage ∧
      t < s'.currentTokenId := by
  cases hstep with
  | register h =>
    obtain ⟨-, -, -, hs'⟩ := registerArtwork_ok h
    subst hs'
    refine ⟨a, ?_, rfl, rfl, rfl, ?_⟩
    · dsimp only
      rw [lookupA_setA_ne s.artworks s.currentTokenId t _ (by omega)]
      exact hart
    · dsimp only
      omega
  | grant h =>
    rename_i sender v t0 licensee d hsh lt now id ts
    obtain ⟨-, -, -, -, -, -, -, hs'⟩ := grantLicense_ok h
    subst hs'
    by_cases htt : t0 = t
    · subst htt
      have hlook : lookupA (setA s.artworks t0
          { (lookupA s.artworks t0).getD default with isLicensed := true }) t0 =
          some { a with isLicensed := true } := by
        rw [lookupA_setA_self, hart]
        rfl
      exact ⟨{ a with isLicensed := true }, hlook, rfl, rfl, rfl, hreg⟩
    · refine ⟨a, ?_, rfl, rfl, rfl, hreg⟩
      dsimp only
      rw [lookupA_setA_ne s.artworks t0 t _ htt]
      exact hart
  | revoke h =>
    rename_i sender t0 licensee now
    obtain ⟨-, -, L1, -, hs'⟩ := revokeLicense_ok h
    subst hs'
    by_cases htt : t0 = t
    · subst htt
      have hlook : lookupA (setA s.artworks t0
          { (lookupA s.artworks t0).getD default with
              isLicensed := L1.any (fun l => l.isActive && decide (now ≤ l.endDate)) }) t0 =
          some { a with
              isLicensed := L1.any (fun l => l.isActive && decide (now ≤ l.endDate)) } := by
        rw [lookupA_setA_self, hart]
        rfl
      exact ⟨{ a with
          isLicensed := L1.any (fun l => l.isActive && decide (now ≤ l.endDate)) },
        hlook, rfl, rfl, rfl, hreg⟩
    · refine ⟨a, ?_, rfl, rfl, rfl, hreg⟩
      dsimp only
      rw [lookupA_setA_ne s.artworks t0 t _ htt]
      exact hart
  | sale h =>
    have hs' := handleSale_ok h
    subst hs'
    exact ⟨a, hart, rfl, rfl, rfl, hreg⟩
  | transferOwner t0 newOwner hex hnz =>
    exact ⟨a, hart, rfl, rfl, rfl, hreg⟩

/-- A concrete reachable state: deployer 1, one artwork (id 0) registered by
creator 2 with metadata "m" and zero royalty. -/
def stA : State :=
  ⟨1, 0, 1, [(0, ⟨2, "m", 0, false⟩)], [], [(2, [0])], [(0, 2)], [(0, "m")]⟩

/-- The state after granting, on top of `stA`, a 1-day license to licensee 3
at time 0 for the minimum fee. -/
def stB : State :=
  ⟨1, 1, 1, [(0, ⟨2, "m", 0, true⟩)],
    [(0, [⟨0, 3, 0, 86400, "h", .PERSONAL, true, LICENSE_FEE⟩])],
    [(2, [0])], [(0, 2)], [(0, "m")]⟩

/-- C3: `royaltyInfo` on a registered artwork is a pure query returning the
pair (creator, floor(salePrice * royaltyBps / 10000)), and the creator and
royalty basis points it reads are fixed: no public transition changes
them. -/
theorem royaltyInfo_pure_fixed (s : State) (t p : Nat) (a : ArtworkInfo)
    (hex : tokenExists s t)
    (hart : lookupA s.artworks t = some a)
    (hreg : t < s.currentTokenId) :
    royaltyInfo s t p = .ok (a.creator, p * a.royaltyPercentage / 10000) ∧
    ∀ s', Step s s' → ∃ a', lookupA s'.artworks t = some a' ∧
      a'.creator = a.creator ∧ a'.royaltyPercentage = a.royaltyPercentage := by
  constructor
  · unfold royaltyInfo
    rw [if_neg (not_not_intro hex)]
    dsimp only
    rw [hart]
    rfl
  · intro s' hstep
    obtain ⟨a', h1, h2, -, h4, -⟩ := artwork_fields_preserved t a hreg hart hstep
    exact ⟨a', h1, h2, h4⟩

/-- Witness for C3 at the concrete state `stA` and the concrete grant step
from `stA` to `stB`. -/
theorem royaltyInfo_pure_fixed_witness :
    royaltyInfo stA 0 1000 = .ok (2, 1000 * 0 / 10000) ∧
    ∃ a', lookupA stB.artworks 0 = some a' ∧ a'.creator = 2 ∧
      a'.royaltyPercentage = 0 := by
  have hmain := royaltyInfo_pure_fixed stA 0 1000 ⟨2, "m", 0, false⟩
    (by decide) (by decide) (by decide)
  refine ⟨hmain.1, ?_⟩
  have hg : grantLicense stA 2 LICENSE_FEE 0 3 1 "h" .PERSONAL 0 =
      .ok (stB, 0, [⟨2, LICENSE_FEE⟩]) := by decide
  exact hmain.2 stB (Step.grant hg)

/-- C6 (amended): the `licensed` flag of an artwork agrees with "some
license is active and unexpired" exactly at the moment of each successful
grant or revoke on that artwork; between operations the stored flag can
go stale as licenses expire, because expiry is never written back. -/
theorem licensed_flag_at_mutation_time :
    (∀ (s : State) (sender : Address) (v t : Nat) (licensee : Address)
       (d : Nat) (hsh : String) (lt : LicenseType) (now : Nat) (s' : State)
       (id : Nat) (ts : List Transfer),
      grantLicense s sender v t licensee d hsh lt now = .ok (s', id, ts) →
      ((lookupA s'.artworks t).map ArtworkInfo.isLicensed = some true ∧
       ∃ l ∈ getLicenses s' t, l.isActive = true ∧ now ≤ l.endDate)) ∧
    (∀ (s : State) (sender : Address) (t : Nat) (licensee : Address)
       (now : Nat) (s' : State),
      revokeLicense s sender t licensee now = .ok s' →
      ((lookupA s'.artworks t).map ArtworkInfo.isLicensed = some true ↔
       ∃ l ∈ getLicenses s' t, l.isActive = true ∧ now ≤ l.endDate)) := by
  constructor
  · intro s sender v t licensee d hsh lt now s' id ts h
    obtain ⟨-, -, -, -, -, -, -, hs'⟩ := grantLicense_ok h
    subst hs'
    constructor
    · dsimp only
      rw [lookupA_setA_self]
      rfl
    · refine ⟨⟨t, licensee, now, now + d * 86400, hsh, lt, true, v⟩, ?_,
        rfl, Nat.le_add_right _ _⟩
      show _ ∈ getLicenses _ t
      unfold getLicenses
      dsimp only
      rw [lookupA_setA_self]
      exact List.mem_append_right _ (List.mem_singleton.mpr rfl)
  · intro s sender t licensee now s' h
    obtain ⟨-, -, L1, -, hs'⟩ := revokeLicense_ok h
    subst hs'
    have hgl : getLicenses { s with
        tokenLicenses := setA s.tokenLicenses t L1,
        artworks := setA s.artworks t
          { (lookupA s.artworks t).getD default with
              isLicensed :=
                L1.any (fun l => l.isActive && decide (now ≤ l.endDate)) } } t =
        L1 := by
      unfold getLicenses
      dsimp only
      rw [lookupA_setA_self]
      rfl
    rw [hgl]
    dsimp only
    rw [lookupA_setA_self]
    simp only [Option.map_some', Option.some.injEq]
    constructor
    · intro hany
      obtain ⟨l, hmem, hl⟩ := List.any_eq_true.mp hany
      simp only [Bool.and_eq_true, decide_eq_true_eq] at hl
      exact ⟨l, hmem, hl⟩
    · intro hex2
      obtain ⟨l, hmem, hact, hend⟩ := hex2
      refine List.any_eq_true.mpr ⟨l, hmem, ?_⟩
      simp [hact, hend]

/-- Witness for C6 (amended): the concrete grant from `stA` to `stB` at
time 0 leaves the flag true with an active unexpired license present. -/
theorem licensed_flag_at_mutation_time_witness :
    (lookupA stB.artworks 0).map ArtworkInfo.isLicensed = some true ∧
    ∃ l ∈ getLicenses stB 0, l.isActive = true ∧ 0 ≤ l.endDate :=
  licensed_flag_at_mutation_time.1 stA 2 LICENSE_FEE 0 3 1 "h" .PERSONAL 0
    stB 0 [⟨2, LICENSE_FEE⟩] (by decide)

/-- C6 counterexample: `stB` is reachable (register, then a 1-day license
granted at time 0) and keeps `isLicensed = true` at artwork 0, yet at
`now = 86401` no license on it is both active and unexpired — the
claimed for-all-times equivalence fails on real states: the stored flag
is not recomputed as time passes. -/
theorem licensed_flag_stale_counterexample :
    Reachable stB ∧
    (lookupA stB.artworks 0).map ArtworkInfo.isLicensed = some true ∧
    ¬ ∃ l ∈ getLicenses stB 0, l.isActive = true ∧ 86401 ≤ l.endDate := by
  refine ⟨⟨1, ?_⟩, by decide, by decide⟩
  have h1 : registerArtwork (initState 1) 2 "m" 0 = .ok (stA, 0) := by decide
  have h2 : grantLicense stA 2 LICENSE_FEE 0 3 1 "h" .PERSONAL 0 =
      .ok (stB, 0, [⟨2, LICENSE_FEE⟩]) := by decide
  exact Relation.ReflTransGen.tail
    (Relation.ReflTransGen.tail .refl (Step.register h1)) (Step.grant h2)

/-- C4 (amended): `registerArtwork` with `royaltyBps > 2000` always fails
with `InvalidRoyalty` and registers nothing; with `royaltyBps` in
[0, 2000] it succeeds exactly when the metadata reference is non-empty,
and fails with `EmptyMetadata` (registering nothing) when it is empty. -/
theorem register_royalty_metadata_validation :
    (∀ (s : State) (sender : Address) (uri : String) (bps : Nat),
      MAX_ROYALTY < bps →
      registerArtwork s sender uri bps = .error (.InvalidRoyalty, s)) ∧
    (∀ (s : State) (sender : Address) (uri : String) (bps : Nat),
      bps ≤ MAX_ROYALTY → uri.length ≠ 0 →
      ∃ s' id, registerArtwork s sender uri bps = .ok (s', id)) ∧
    (∀ (s : State) (sender : Address) (uri : String) (bps : Nat),
      bps ≤ MAX_ROYALTY → uri.length = 0 →
      registerArtwork s sender uri bps = .error (.EmptyMetadata, s)) := by
  refine ⟨?_, ?_, ?_⟩
  · intro s sender uri bps hb
    unfold registerArtwork
    rw [if_pos hb]
  · intro s sender uri bps hb hu
    unfold registerArtwork
    rw [if_neg (Nat.not_lt.mpr hb), if_neg hu]
    exact ⟨_, _, rfl⟩
  · intro s sender uri bps hb hu
    unfold registerArtwork
    rw [if_neg (Nat.not_lt.mpr hb), if_pos hu]

/-- C4 counterexample: with `royaltyBps = 0` (inside [0, 2000]) but an
empty metadata reference, registration does not succeed — it fails with
`EmptyMetadata`, refuting "with royaltyBps in [0, 2000] the call always
succeeds". -/
theorem register_empty_metadata_counterexample :
    registerArtwork (initState 1) 2 "" 0 =
      .error (.EmptyMetadata, initState 1) := by decide

/-- Witness for C4 (amended) at concrete inputs: royalty 2500 is rejected,
royalty 2000 with non-empty metadata is accepted. -/
theorem register_royalty_metadata_validation_witness :
    registerArtwork (initState 1) 2 "mm" 2500 =
      .error (.InvalidRoyalty, initState 1) ∧
    ∃ s' id, registerArtwork (initState 1) 2 "mm" 2000 = .ok (s', id) :=
  ⟨register_royalty_metadata_validation.1 (initState 1) 2 "mm" 2500 (by decide),
   register_royalty_metadata_validation.2.1 (initState 1) 2 "mm" 2000
     (by decide) (by decide)⟩

/-- C9 (amended): `grantLicense` fails with `InvalidLicensee` (appending
nothing) when the licensee is the null identity; but a licensee equal to
the caller is NOT rejected: when the remaining checks pass, the grant to
the caller themselves succeeds and appends a license. -/
theorem grant_licensee_validation :
    (∀ (s : State) (sender : Address) (v t d : Nat) (hsh : String)
       (lt : LicenseType) (now : Nat),
      tokenExists s t → ownerOfD s t = sender →
      grantLicense s sender v t 0 d hsh lt now = .error (.InvalidLicensee, s)) ∧
    (∀ (s : State) (sender : Address) (v t d : Nat) (hsh : String)
       (lt : LicenseType) (now : Nat),
      tokenExists s t → ownerOfD s t = sender → sender ≠ 0 →
      LICENSE_FEE ≤ v → d ≠ 0 →
      ∃ s' id ts, grantLicense s sender v t sender d hsh lt now =
          .ok (s', id, ts) ∧
        getLicenses s' t = getLicenses s t ++
          [⟨t, sender, now, now + d * 86400, hsh, lt, true, v⟩]) := by
  constructor
  · intro s sender v t d hsh lt now hex hown
    unfold grantLicense
    rw [if_neg (not_not_intro hex), if_neg (fun hne => hne hown), if_pos rfl]
  · intro s sender v t d hsh lt now hex hown hnz hfee hd
    unfold grantLicense
    rw [if_neg (not_not_intro hex), if_neg (fun hne => hne hown),
      if_neg hnz, if_neg (Nat.not_lt.mpr hfee), if_neg hd]
    refine ⟨_, _, _, rfl, ?_⟩
    unfold getLicenses
    dsimp only
    rw [lookupA_setA_self]
    rfl

/-- C9 counterexample: on `stA` (artwork 0 owned by 2) the owner grants a
license to themselves (licensee = caller = 2) and the call succeeds,
appending a license with licensee 2 — the claim says it must fail with
`InvalidLicensee` and append nothing. -/
theorem grant_to_self_succeeds_counterexample :
    (grantLicense stA 2 LICENSE_FEE 0 2 1 "h" .PERSONAL 0).toOption.map
      (fun r => (getLicenses r.1 0).map License.licensee) = some [2] := by
  decide

/-- Witness for C9 (amended) on concrete inputs over `stA`. -/
theorem grant_licensee_validation_witness :
    grantLicense stA 2 LICENSE_FEE 0 0 1 "h" .PERSONAL 0 =
      .error (.InvalidLicensee, stA) ∧
    ∃ s' id ts, grantLicense stA 2 LICENSE_FEE 0 2 1 "h" .PERSONAL 0 =
        .ok (s', id, ts) ∧
      getLicenses s' 0 = getLicenses stA 0 ++
        [⟨0, 2, 0, 0 + 1 * 86400, "h", .PERSONAL, true, LICENSE_FEE⟩] :=
  ⟨grant_licensee_validation.1 stA 2 LICENSE_FEE 0 1 "h" .PERSONAL 0
     (by decide) (by decide),
   grant_licensee_validation.2 stA 2 LICENSE_FEE 0 1 "h" .PERSONAL 0
     (by decide) (by decide) (by decide) (by decide) (by decide)⟩

/-- C10: every successful `grantLicense` requires the caller (who must be
the artwork's owner) to attach the fee, then transfers that exact amount
straight back to the caller: the transfer list is `[(caller, msgValue)]`
and the net balance change of every account from the fee routing is
zero (the licensee pays nothing at grant time). -/
theorem grant_fee_roundtrip (s : State) (sender : Address) (v t : Nat)
    (licensee : Address) (d : Nat) (hsh : String) (lt : LicenseType)
    (now : Nat) (s' : State) (id : Nat) (ts : List Transfer)
    (h : grantLicense s sender v t licensee d hsh lt now = .ok (s', id, ts)) :
    ownerOfD s t = sender ∧ LICENSE_FEE ≤ v ∧ ts = [⟨sender, v⟩] ∧
    ∀ a : Address, feeNet ts sender v a = 0 := by
  obtain ⟨-, hown, -, hfee, -, -, hts, -⟩ := grantLicense_ok h
  subst hts
  refine ⟨hown, hfee, rfl, ?_⟩
  intro a
  by_cases ha : a = sender
  · subst ha
    simp [feeNet]
  · have hsa : (sender == a) = false :=
      beq_eq_false_iff_ne.mpr (fun he => ha he.symm)
    simp [feeNet, ha, hsa]

/-- Witness for C10 on the concrete grant from `stA` to `stB`. -/
theorem grant_fee_roundtrip_witness :
    ownerOfD stA 0 = 2 ∧ LICENSE_FEE ≤ LICENSE_FEE ∧
    [⟨2, LICENSE_FEE⟩] = ([⟨2, LICENSE_FEE⟩] : List Transfer) ∧
    ∀ a : Address, feeNet [⟨2, LICENSE_FEE⟩] 2 LICENSE_FEE a = 0 :=
  grant_fee_roundtrip stA 2 LICENSE_FEE 0 3 1 "h" .PERSONAL 0 stB 0
    [⟨2, LICENSE_FEE⟩] (by decide)

/-- C7: a license granted for 30 days at time `T` and not revoked makes
`isLicenseValid` return true at every `now <= T + 30*86400` (endpoint
inclusive) and false at `now = T + 30*86400 + 1`, provided no other
license of that licensee on the artwork is still valid past the
endpoint. -/
theorem license_validity_boundary (s : State) (sender : Address) (v t : Nat)
    (licensee : Address) (hsh : String) (lt : LicenseType) (T : Nat)
    (s' : State) (id : Nat) (ts : List Transfer)
    (hgrant : grantLicense s sender v t licensee 30 hsh lt T = .ok (s', id, ts))
    (hquiet : ∀ l ∈ getLicenses s t, l.licensee = licensee →
      l.isActive = true → l.endDate < T + 30 * 86400 + 1) :
    (∀ now, now ≤ T + 30 * 86400 →
      isLicenseValid s' t licensee now = .ok true) ∧
    isLicenseValid s' t licensee (T + 30 * 86400 + 1) = .ok false := by
  obtain ⟨hex, -, -, -, -, -, -, hs'⟩ := grantLicense_ok hgrant
  have hgl : getLicenses s' t =
      getLicenses s t ++ [⟨t, licensee, T, T + 30 * 86400, hsh, lt, true, v⟩] := by
    rw [hs']
    unfold getLicenses
    dsimp only
    rw [lookupA_setA_self]
    rfl
  have hex2 : tokenExists s' t := by
    rw [hs']
    exact hex
  constructor
  · intro now hnow
    unfold isLicenseValid
    rw [if_neg (not_not_intro hex2), hgl]
    have hany : ((getLicenses s t ++
        ([⟨t, licensee, T, T + 30 * 86400, hsh, lt, true, v⟩] : List License)).any
          (fun l => l.licensee == licensee && l.isActive &&
            decide (now ≤ l.endDate))) = true := by
      refine List.any_eq_true.mpr
        ⟨(⟨t, licensee, T, T + 30 * 86400, hsh, lt, true, v⟩ : License),
         List.mem_append_right _ (List.mem_singleton.mpr rfl), ?_⟩
      simp [hnow]
    rw [hany]
  · unfold isLicenseValid
    rw [if_neg (not_not_intro hex2), hgl]
    have hany : ((getLicenses s t ++
        ([⟨t, licensee, T, T + 30 * 86400, hsh, lt, true, v⟩] : List License)).any
          (fun l => l.licensee == licensee && l.isActive &&
            decide (T + 30 * 86400 + 1 ≤ l.endDate))) = false := by
      rw [List.any_eq_false]
      intro l hl
      rcases List.mem_append.mp hl with hmem | hmem
      · by_cases h1 : l.licensee = licensee
        · by_cases h2 : l.isActive = true
          · have h3 := hquiet l hmem h1 h2
            have h4 : ¬ (T + 30 * 86400 + 1 ≤ l.endDate) := by omega
            simp [h1, h2, h4]
          · have h2' : l.isActive = false := by
              cases hb : l.isActive
              · rfl
              · exact absurd hb h2
            simp [h2']
        · have h1' : (l.licensee == licensee) = false :=
            beq_eq_false_iff_ne.mpr h1
          simp [h1']
      · have hl' : l = ⟨t, licensee, T, T + 30 * 86400, hsh, lt, true, v⟩ :=
          List.mem_singleton.mp hmem
        subst hl'
        have h4 : ¬ (T + 30 * 86400 + 1 ≤ T + 30 * 86400) := by omega
        simp [h4]
    rw [hany]

/-- The state after granting, on top of `stA`, a 30-day license to
licensee 3 at time 0. -/
def stB30 : State :=
  ⟨1, 1, 1, [(0, ⟨2, "m", 0, true⟩)],
    [(0, [⟨0, 3, 0, 2592000, "h", .PERSONAL, true, LICENSE_FEE⟩])],
    [(2, [0])], [(0, 2)], [(0, "m")]⟩

/-- Witness for C7: a concrete 30-day license granted at time 0, checked at
the inclusive endpoint 2592000 and at 2592001. -/
theorem license_validity_boundary_witness :
    isLicenseValid stB30 0 3 (0 + 30 * 86400) = .ok true ∧
    isLicenseValid stB30 0 3 (0 + 30 * 86400 + 1) = .ok false :=
  have hmain := license_validity_boundary stA 2 LICENSE_FEE 0 3 "h" .PERSONAL 0
    stB30 0 [⟨2, LICENSE_FEE⟩] (by decide) (by decide)
  ⟨hmain.1 (0 + 30 * 86400) (le_refl _), hmain.2⟩

theorem runRegisters_lb (cs : List RegCall) (s : State) :
    ∀ id ∈ (runRegisters s cs).2, s.currentTokenId ≤ id := by
  induction cs generalizing s with
  | nil =>
    intro id h
    simp [runRegisters] at h
  | cons c rest ih =>
    intro id hid
    unfold runRegisters at hid
    cases hreg : registerArtwork s c.sender c.uri c.bps with
    | ok r =>
      obtain ⟨s1, rid⟩ := r
      rw [hreg] at hid
      dsimp only at hid
      obtain ⟨-, -, hrid, hs1⟩ := registerArtwork_ok hreg
      rcases List.mem_cons.mp hid with heq | hmem
      · omega
      · have := ih s1 id hmem
        subst hs1
        dsimp only at this
        omega
    | error es =>
      obtain ⟨e1, e2⟩ := es
      rw [hreg] at hid
      dsimp only at hid
      have hes : e2 = s := registerArtwork_error hreg
      rw [hes] at hid
      exact ih s id hid

theorem runRegisters_chain (cs : List RegCall) (s : State) :
    List.Chain' (· < ·) (runRegisters s cs).2 := by
  induction cs generalizing s with
  | nil => simp [runRegisters]
  | cons c rest ih =>
    unfold runRegisters
    cases hreg : registerArtwork s c.sender c.uri c.bps with
    | ok r =>
      obtain ⟨s1, rid⟩ := r
      dsimp only
      rw [List.chain'_cons']
      constructor
      · intro b hb
        have hbmem : b ∈ (runRegisters s1 rest).2 := List.mem_of_mem_head? hb
        have hlb := runRegisters_lb rest s1 b hbmem
        obtain ⟨-, -, hrid, hs1⟩ := registerArtwork_ok hreg
        subst hs1
        dsimp only at hlb
        omega
      · exact ih s1
    | error es =>
      obtain ⟨e1, e2⟩ := es
      dsimp only
      exact ih e2

/-- C8: over any batch of register calls, the ids returned by the
successful ones form a strictly increasing sequence (hence no repeats),
and an id already assigned is never re-bound to a different artwork:
every public transition preserves the creator, metadata and royalty
stored under an existing id. -/
theorem register_ids_strictly_increasing (s : State) (cs : List RegCall) :
    List.Chain' (· < ·) (runRegisters s cs).2 ∧
    (∀ (t : Nat) (a : ArtworkInfo) (s' : State),
      t < s.currentTokenId → lookupA s.artworks t = some a → Step s s' →
      ∃ a', lookupA s'.artworks t = some a' ∧ a'.creator = a.creator ∧
        a'.metadataURI = a.metadataURI ∧
        a'.royaltyPercentage = a.royaltyPercentage) := by
  refine ⟨runRegisters_chain cs s, ?_⟩
  intro t a s' hlt hart hstep
  obtain ⟨a', h1, h2, h3, h4, -⟩ := artwork_fields_preserved t a hlt hart hstep
  exact ⟨a', h1, h2, h3, h4⟩

/-- Witness for C8: a concrete three-call batch (one of which fails) and a
concrete preservation step from `stA` to `stB`. -/
theorem register_ids_strictly_increasing_witness :
    List.Chain' (· < ·)
      (runRegisters (initState 1) [⟨2, "m", 0⟩, ⟨2, "", 7⟩, ⟨3, "n", 5⟩]).2 ∧
    ∃ a', lookupA stB.artworks 0 = some a' ∧ a'.creator = 2 ∧
      a'.metadataURI = "m" ∧ a'.royaltyPercentage = 0 := by
  have hg : grantLicense stA 2 LICENSE_FEE 0 3 1 "h" .PERSONAL 0 =
      .ok (stB, 0, [⟨2, LICENSE_FEE⟩]) := by decide
  exact ⟨(register_ids_strictly_increasing (initState 1)
      [⟨2, "m", 0⟩, ⟨2, "", 7⟩, ⟨3, "n", 5⟩]).1,
    (register_ids_strictly_increasing stA []).2 0 ⟨2, "m", 0, false⟩ stB
      (by decide) (by decide) (Step.grant hg)⟩
